import Mathlib

/-!
Verification development for the Tavily web-research-agent notebook
(`tutorials/agent-with-tavily-web-access/web-agent-tutorial.ipynb`).

The notebook wires three Tavily tools (search, extract, crawl) and an
OpenAI chat model into a prebuilt ReAct reasoning loop
(`create_react_agent`) and streams the result.  The loop itself lives in
the agent framework, not in this repository, so the loop below is
modelled from the specification of the tool-use reasoning loop
(algorithm steps 1-5, failure semantics, and the error-kind catalogue).
The tool configurations, model instantiations, and credential setup are
embedded directly from the notebook cells.
-/

/-- Argument values a model can supply for a tool parameter: the
notebook tools take integer parameters (such as max_results or
max_depth) and string parameters (such as query, topic, extract_depth). -/
inductive ArgValue where
  | int (n : Int)
  | str (s : String)
deriving DecidableEq, Repr

/-- ToolCall: tool name plus concrete argument values chosen by the
model for one invocation, tagged with a call id so the model can
correlate multiple simultaneous calls. -/
structure ToolCall where
  id : Nat
  name : String
  args : List (String × ArgValue)
deriving DecidableEq, Repr

/-- Message: role and payload of one conversation entry.  An assistant
message carries the list of tool-call requests it makes (empty for a
final answer); a toolMsg carries the originating call id, the tool name
and the returned payload. -/
inductive Message where
  | system (content : String)
  | user (content : String)
  | assistant (content : String) (calls : List ToolCall)
  | toolMsg (callId : Nat) (toolName : String) (content : String)
deriving DecidableEq, Repr

/-- One declared tool parameter: field name, whether it is required, and
the constraint a supplied value must satisfy. -/
structure ParamSpec where
  name : String
  required : Bool
  check : ArgValue → Bool

/-- ToolSpec: name, natural-language description, parameter schema, and
the configuration values fixed at construction time in the notebook
(the invocation function itself is an external network call and is
supplied to the loop as an executor oracle). -/
structure ToolSpec where
  name : String
  description : String
  schema : List ParamSpec
  config : List (String × ArgValue)

/-- Look up an argument by field name in a supplied argument list. -/
def lookupArg (args : List (String × ArgValue)) (k : String) : Option ArgValue :=
  (args.find? (fun p => p.1 == k)).map (·.2)

/-- Modelled from the spec: validation of a ToolCall argument list
against the declared parameter schema — it fails when a required field
is missing or a supplied field is mistyped or violates its constraint. -/
def ToolSpec.validate (t : ToolSpec) (args : List (String × ArgValue)) : Bool :=
  t.schema.all (fun p =>
    match lookupArg args p.name with
    | none => !p.required
    | some v => p.check v)

/-- Value check: the supplied value is a string. -/
def isStr : ArgValue → Bool
  | .str _ => true
  | .int _ => false

/-- Value check: the supplied value is an integer. -/
def isInt : ArgValue → Bool
  | .int _ => true
  | .str _ => false

/-- Value check: the supplied value is a non-negative integer (the spec
scenario marks a crawl with max_depth = -1 as invalid). -/
def isNonnegInt : ArgValue → Bool
  | .int n => decide (0 ≤ n)
  | .str _ => false

/-- The model-inference endpoint as an oracle: it receives the message
history and returns either an assistant turn (content plus requested
tool calls, the list being empty for a final answer) or a transport
failure, which the loop surfaces as ModelInvocationError. -/
def ModelOracle : Type := List Message → Except Unit (String × List ToolCall)

/-- The external search/extract/crawl services as an oracle: executing a
tool call either returns a payload or fails, which the loop surfaces as
ToolExecutionError content. -/
def ExecOracle : Type := String → List (String × ArgValue) → Except Unit String

/-- Modelled from the spec: the payload recorded for one requested
ToolCall.  Arguments are validated against the tool schema before
execution; a validation failure short-circuits into InvalidToolArguments
without consulting the executor, and an executor failure is reported as
ToolExecutionError content.  Both are reported back into the
conversation rather than raised. -/
def runToolContent (tools : List ToolSpec) (e : ExecOracle) (c : ToolCall) : String :=
  match tools.find? (fun t => t.name == c.name) with
  | none => "InvalidToolArguments"
  | some t =>
    if t.validate c.args then
      match e c.name c.args with
      | .ok r => r
      | .error _ => "ToolExecutionError"
    else "InvalidToolArguments"

/-- Wrap the outcome of one requested ToolCall as a ToolResult message,
tagged with the originating call id. -/
def runTool (tools : List ToolSpec) (e : ExecOracle) (c : ToolCall) : Message :=
  .toolMsg c.id c.name (runToolContent tools e c)

/-- Outcome of one turn of the loop: proceed to the next model decision
with an extended history, finish with a final answer, or abort because
the model call itself failed. -/
inductive TurnOutcome where
  | next (h : List Message)
  | done (answer : String) (h : List Message)
  | modelError
deriving Repr

/-- Modelled from the spec: one turn of the tool-use reasoning loop.
The full history is sent to the model; a non-tool-call response is the
final answer; otherwise every requested call is validated and executed
and each result is appended to the history after the assistant message
that requested it. -/
def turn (m : ModelOracle) (tools : List ToolSpec) (e : ExecOracle)
    (h : List Message) : TurnOutcome :=
  match m h with
  | .error _ => .modelError
  | .ok (c, []) => .done c (h ++ [.assistant c []])
  | .ok (c, call :: rest) =>
      .next (h ++ .assistant c (call :: rest) :: (call :: rest).map (runTool tools e))

/-- Result of a whole session: a final answer with the final history, or
one of the two fatal failures (iteration cap reached, model call
failed), each carrying the history at the point of failure. -/
inductive RunResult where
  | final (answer : String) (h : List Message)
  | maxIterationsExceeded (h : List Message)
  | modelInvocationError (h : List Message)
deriving DecidableEq, Repr

/-- Modelled from the spec: the tool-use reasoning loop with an
iteration cap.  Each unit of fuel allows one model decision; running out
of fuel yields MaxIterationsExceeded, a model failure propagates as
ModelInvocationError, and a non-tool-call model message terminates with
the final answer. -/
def loop : Nat → ModelOracle → List ToolSpec → ExecOracle → List Message → RunResult
  | 0, _, _, _, h => .maxIterationsExceeded h
  | n + 1, m, tools, e, h =>
    match turn m tools e h with
    | .modelError => .modelInvocationError h
    | .done a h' => .final a h'
    | .next h' => loop n m tools e h'

/-- The message history a run result carries. -/
def RunResult.history : RunResult → List Message
  | .final _ h => h
  | .maxIterationsExceeded h => h
  | .modelInvocationError h => h

/-- Whether a message is an assistant message; each turn of the loop
contributes exactly one, so counting them counts the turns taken. -/
def isAssistant : Message → Bool
  | .assistant _ _ => true
  | _ => false

/-- Number of assistant messages (model decisions recorded) in a
history. -/
def assistantCount (h : List Message) : Nat :=
  h.countP isAssistant

/-- Loop state: the session history together with the tool set in
effect; the tool set is fixed at construction and carried unchanged. -/
structure AgentState where
  history : List Message
  tools : List ToolSpec

/-- The sequence of loop states reached by a run, starting from the
initial state; each continuing turn contributes the next state. -/
def stateTrace : Nat → ModelOracle → ExecOracle → AgentState → List AgentState
  | 0, _, _, s => [s]
  | n + 1, m, e, s =>
    match turn m s.tools e s.history with
    | .modelError => [s]
    | .done _ h' => [s, ⟨h', s.tools⟩]
    | .next h' => s :: stateTrace n m e ⟨h', s.tools⟩

/-- Big-step run relation of the loop, written from the algorithm: a run
either hits the iteration cap, propagates a model failure, accepts a
final answer, or performs a tool turn and continues. -/
inductive Run (m : ModelOracle) (tools : List ToolSpec) (e : ExecOracle) :
    Nat → List Message → RunResult → Prop where
  | maxIter (h : List Message) : Run m tools e 0 h (.maxIterationsExceeded h)
  | modelErr (n : Nat) (h : List Message) :
      m h = .error () → Run m tools e (n + 1) h (.modelInvocationError h)
  | finalAns (n : Nat) (h : List Message) (c : String) :
      m h = .ok (c, []) → Run m tools e (n + 1) h (.final c (h ++ [.assistant c []]))
  | toolTurn (n : Nat) (h : List Message) (c : String) (call : ToolCall)
      (rest : List ToolCall) (r : RunResult) :
      m h = .ok (c, call :: rest) →
      Run m tools e n
        (h ++ .assistant c (call :: rest) :: (call :: rest).map (runTool tools e)) r →
      Run m tools e (n + 1) h r

/-! ### Tool and agent construction, embedded from the notebook -/

/-- Modelled from the spec: parameter schema of the search service,
`search(query, max_results, topic, search_depth?, time_range?,
include_domains?, include_raw_content?)`. -/
def searchSchema : List ParamSpec :=
  [⟨"query", true, isStr⟩,
   ⟨"max_results", false, isNonnegInt⟩,
   ⟨"topic", false, isStr⟩,
   ⟨"search_depth", false, isStr⟩,
   ⟨"time_range", false, isStr⟩,
   ⟨"include_domains", false, isStr⟩,
   ⟨"include_raw_content", false, isStr⟩]

/-- Modelled from the spec: parameter schema of the extract service,
`extract(urls, extract_depth, include_images?)`. -/
def extractSchema : List ParamSpec :=
  [⟨"urls", true, isStr⟩,
   ⟨"extract_depth", false, isStr⟩,
   ⟨"include_images", false, isStr⟩]

/-- Modelled from the spec: parameter schema of the crawl service,
`crawl(base_url, max_depth, max_breadth, extract_depth, select_paths?,
exclude_paths?)`; a negative max_depth such as -1 is invalid. -/
def crawlSchema : List ParamSpec :=
  [⟨"base_url", true, isStr⟩,
   ⟨"max_depth", false, isNonnegInt⟩,
   ⟨"max_breadth", false, isNonnegInt⟩,
   ⟨"extract_depth", false, isStr⟩,
   ⟨"select_paths", false, isStr⟩,
   ⟨"exclude_paths", false, isStr⟩]

/-- `search = TavilySearch(max_results=10, topic="general")` from the
notebook tool-definition cell. -/
def search : ToolSpec :=
  { name := "tavily_search"
    description := "Search the web for relevant information"
    schema := searchSchema
    config := [("max_results", .int 10), ("topic", .str "general")] }

/-- `extract = TavilyExtract(extract_depth="advanced")` from the
notebook tool-definition cell. -/
def extract : ToolSpec :=
  { name := "tavily_extract"
    description := "Extract content from specific web pages"
    schema := extractSchema
    config := [("extract_depth", .str "advanced")] }

/-- `crawl = TavilyCrawl()` from the notebook tool-definition cell: all
parameters left at their defaults. -/
def crawl : ToolSpec :=
  { name := "tavily_crawl"
    description := "Crawl entire websites"
    schema := crawlSchema
    config := [] }

/-- The fixed tool set `[search, extract, crawl]` passed to
`create_react_agent` in the notebook. -/
def webTools : List ToolSpec := [search, extract, crawl]

/-- A chat-model handle as constructed by `ChatOpenAI(model=...)`. -/
structure ChatOpenAI where
  model : String
deriving DecidableEq, Repr

/-- `o3_mini = ChatOpenAI(model="o3-mini-2025-01-31", ...)` from the
notebook model-instantiation cell. -/
def o3_mini : ChatOpenAI := ⟨"o3-mini-2025-01-31"⟩

/-- `gpt_4_1 = ChatOpenAI(model="gpt-4.1", ...)` from the notebook
model-instantiation cell. -/
def gpt_4_1 : ChatOpenAI := ⟨"gpt-4.1"⟩

/-- An agent as assembled by `create_react_agent(model, tools, prompt)`:
the decision-making model, the tool set, and the system prompt. -/
structure ReactAgent where
  model : ChatOpenAI
  tools : List ToolSpec
  promptText : String

/-- Opening of the system prompt passed to `create_react_agent` in the
notebook (the remainder is tool-usage guidance in natural language and
plays no role in the claims). -/
def systemPromptText : String :=
  "You are a research agent equipped with advanced web tools: Tavily Web Search, Web Crawl, and Web Extract."

/-- `web_agent = create_react_agent(model=gpt_4_1, tools=[search,
extract, crawl], prompt=...)` from the notebook agent-construction
cell. -/
def web_agent : ReactAgent :=
  { model := gpt_4_1
    tools := webTools
    promptText := systemPromptText }

/-! ### Credential setup, embedded from the notebook setup cell -/

/-- `os.environ.get(k)`: the first binding of the key, if any. -/
def envGet (env : List (String × String)) (k : String) : Option String :=
  (env.find? (fun p => p.1 == k)).map (·.2)

/-- `os.environ[k] = v`: replace the bindings of the key, or append one
if the key is absent. -/
def envSet (env : List (String × String)) (k v : String) : List (String × String) :=
  if (env.find? (fun p => p.1 == k)).isSome then
    env.map (fun p => if p.1 == k then (k, v) else p)
  else
    env ++ [(k, v)]

/-- Python truthiness of `not os.environ.get(k)`: true when the variable
is absent and also when it is set to the empty string. -/
def pythonFalsy : Option String → Bool
  | none => true
  | some s => s == ""

/-- One guarded prompt from the setup cell,
`if not os.environ.get(k): os.environ[k] = getpass.getpass(...)`,
with `gp` the getpass oracle; the Boolean records whether the user was
prompted. -/
def ensureKey (gp : String → String) (env : List (String × String)) (k : String) :
    List (String × String) × Bool :=
  if pythonFalsy (envGet env k) then (envSet env k (gp k), true) else (env, false)

/-- The notebook setup cell after `load_dotenv()`: guard TAVILY_API_KEY,
then guard OPENAI_API_KEY; returns the final environment and which of
the two keys prompted the user. -/
def setupCredentials (gp : String → String) (env : List (String × String)) :
    List (String × String) × Bool × Bool :=
  let r1 := ensureKey gp env "TAVILY_API_KEY"
  let r2 := ensureKey gp r1.1 "OPENAI_API_KEY"
  (r2.1, r1.2, r2.2)

/-! ### Basic lemmas about turns and histories -/

/-- A turn result of `done` appends exactly the final assistant message. -/
theorem turn_done_eq (m : ModelOracle) (tools : List ToolSpec) (e : ExecOracle)
    (h : List Message) (a : String) (h2 : List Message)
    (ht : turn m tools e h = .done a h2) :
    m h = .ok (a, []) ∧ h2 = h ++ [.assistant a []] := by
  unfold turn at ht
  cases hm : m h with
  | error u => rw [hm] at ht; simp at ht
  | ok p =>
    obtain ⟨c, calls⟩ := p
    cases calls with
    | nil =>
      rw [hm] at ht
      simp at ht
      obtain ⟨rfl, rfl⟩ := ht
      exact ⟨rfl, rfl⟩
    | cons call rest => rw [hm] at ht; simp at ht

/-- A turn result of `next` comes from a model response with at least
one tool call and appends the assistant message followed by one tool
result per requested call. -/
theorem turn_next_eq (m : ModelOracle) (tools : List ToolSpec) (e : ExecOracle)
    (h : List Message) (h2 : List Message)
    (ht : turn m tools e h = .next h2) :
    ∃ c call rest, m h = .ok (c, call :: rest) ∧
      h2 = h ++ .assistant c (call :: rest) :: (call :: rest).map (runTool tools e) := by
  unfold turn at ht
  cases hm : m h with
  | error u => rw [hm] at ht; simp at ht
  | ok p =>
    obtain ⟨c, calls⟩ := p
    cases calls with
    | nil => rw [hm] at ht; simp at ht
    | cons call rest =>
      rw [hm] at ht
      simp at ht
      exact ⟨c, call, rest, rfl, ht.symm⟩

/-- A tool-result message is never an assistant message. -/
theorem isAssistant_runTool (tools : List ToolSpec) (e : ExecOracle) (c : ToolCall) :
    isAssistant (runTool tools e c) = false := rfl

/-- Mapped tool results contribute no assistant messages. -/
theorem assistantCount_map_runTool (tools : List ToolSpec) (e : ExecOracle)
    (calls : List ToolCall) :
    assistantCount (calls.map (runTool tools e)) = 0 := by
  unfold assistantCount
  rw [List.countP_map]
  simp [Function.comp, isAssistant_runTool]

/-- Assistant counts add over history concatenation. -/
theorem assistantCount_append (h1 h2 : List Message) :
    assistantCount (h1 ++ h2) = assistantCount h1 + assistantCount h2 :=
  List.countP_append _ _ _

/-- C1: from any initial message sequence and fixed tool set the loop
terminates with a final answer, MaxIterationsExceeded, or
ModelInvocationError; it performs at most the configured number of turns
(each turn records exactly one assistant message, and the run adds at
most `n` of them), never silently truncating. -/
theorem c1_loop_terminates_within_cap (n : Nat) (m : ModelOracle)
    (tools : List ToolSpec) (e : ExecOracle) (h : List Message) :
    ((∃ a h2, loop n m tools e h = .final a h2) ∨
     (∃ h2, loop n m tools e h = .maxIterationsExceeded h2) ∨
     (∃ h2, loop n m tools e h = .modelInvocationError h2)) ∧
    assistantCount (loop n m tools e h).history ≤ assistantCount h + n := by
  induction n generalizing h with
  | zero =>
    refine ⟨Or.inr (Or.inl ⟨h, rfl⟩), ?_⟩
    simp [loop, RunResult.history]
  | succ n ih =>
    cases ht : turn m tools e h with
    | modelError =>
      refine ⟨Or.inr (Or.inr ⟨h, by simp [loop, ht]⟩), ?_⟩
      simp only [loop, ht, RunResult.history]
      omega
    | done a h2 =>
      obtain ⟨hm, rfl⟩ := turn_done_eq m tools e h a h2 ht
      refine ⟨Or.inl ⟨a, h ++ [Message.assistant a []], by simp [loop, ht]⟩, ?_⟩
      simp only [loop, ht, RunResult.history, assistantCount_append]
      have hone : assistantCount [Message.assistant a []] = 1 := by
        simp [assistantCount, isAssistant]
      omega
    | next h2 =>
      have hloop : loop (n + 1) m tools e h = loop n m tools e h2 := by
        simp [loop, ht]
      obtain ⟨c, call, rest, hm, rfl⟩ := turn_next_eq m tools e h h2 ht
      have hcount :
          assistantCount (h ++ .assistant c (call :: rest) ::
            (call :: rest).map (runTool tools e)) = assistantCount h + 1 := by
        rw [assistantCount_append]
        have h1 : assistantCount (Message.assistant c (call :: rest) ::
            (call :: rest).map (runTool tools e)) = 1 := by
          unfold assistantCount
          rw [List.countP_cons]
          have h0 := assistantCount_map_runTool tools e (call :: rest)
          unfold assistantCount at h0
          rw [h0]
          simp [isAssistant]
        omega
      obtain ⟨htri, hbound⟩ := ih _
      rw [hloop]
      rw [hcount] at hbound
      exact ⟨htri, by omega⟩

/-- Every state trace starts with the initial state. -/
theorem stateTrace_head (n : Nat) (m : ModelOracle) (e : ExecOracle) (s : AgentState) :
    ∃ tl, stateTrace n m e s = s :: tl := by
  cases n with
  | zero => exact ⟨[], rfl⟩
  | succ n =>
    cases ht : turn m s.tools e s.history with
    | modelError => exact ⟨[], by simp [stateTrace, ht]⟩
    | done a h2 => exact ⟨[⟨h2, s.tools⟩], by simp [stateTrace, ht]⟩
    | next h2 => exact ⟨stateTrace n m e ⟨h2, s.tools⟩, by simp [stateTrace, ht]⟩

/-- C2: along every run, the message history is strictly append-only:
between any two consecutive loop states the earlier history is a prefix
of the later one, so no prior message is ever mutated or removed. -/
theorem c2_history_append_only (n : Nat) (m : ModelOracle) (e : ExecOracle)
    (s : AgentState) :
    List.Chain' (fun h1 h2 => h1 <+: h2)
      ((stateTrace n m e s).map AgentState.history) := by
  induction n generalizing s with
  | zero => simp [stateTrace]
  | succ n ih =>
    cases ht : turn m s.tools e s.history with
    | modelError =>
      simp [stateTrace, ht]
    | done a h2 =>
      obtain ⟨hm, rfl⟩ := turn_done_eq m s.tools e s.history a h2 ht
      have hst : stateTrace (n + 1) m e s =
          [s, ⟨s.history ++ [Message.assistant a []], s.tools⟩] := by
        simp [stateTrace, ht]
      rw [hst]
      simp only [List.map_cons, List.map_nil, List.chain'_cons, List.chain'_singleton,
        and_true]
      exact ⟨[Message.assistant a []], rfl⟩
    | next h2 =>
      have hpre : s.history <+: h2 := by
        obtain ⟨c, call, rest, hm, rfl⟩ := turn_next_eq m s.tools e s.history h2 ht
        exact ⟨_, rfl⟩
      have hst : stateTrace (n + 1) m e s = s :: stateTrace n m e ⟨h2, s.tools⟩ := by
        simp [stateTrace, ht]
      obtain ⟨tl, htl⟩ := stateTrace_head n m e ⟨h2, s.tools⟩
      have ihs := ih ⟨h2, s.tools⟩
      rw [htl, List.map_cons] at ihs
      rw [hst, List.map_cons, htl, List.map_cons]
      exact List.chain'_cons.mpr ⟨hpre, ihs⟩

/-- C3: in a turn whose model response requests tools, each appended
tool-result message is a toolMsg carrying the call id of a requested
ToolCall of that same turn, and when the requested call ids are distinct
exactly one request of the turn matches it; no unrequested tool result
is ever appended. -/
theorem c3_tool_messages_have_unique_request (m : ModelOracle)
    (tools : List ToolSpec) (e : ExecOracle) (h : List Message) (c : String)
    (call : ToolCall) (rest : List ToolCall)
    (hm : m h = .ok (c, call :: rest))
    (hnd : ((call :: rest).map ToolCall.id).Nodup) :
    turn m tools e h =
      .next (h ++ .assistant c (call :: rest) ::
        (call :: rest).map (runTool tools e)) ∧
    ∀ r ∈ (call :: rest).map (runTool tools e),
      ∃ cid tname content, r = .toolMsg cid tname content ∧
        (call :: rest).countP (fun tc => tc.id == cid) = 1 := by
  constructor
  · unfold turn
    rw [hm]
  · intro r hr
    obtain ⟨tc, htc, rfl⟩ := List.mem_map.mp hr
    refine ⟨tc.id, tc.name, runToolContent tools e tc, rfl, ?_⟩
    have h1 : ((call :: rest).map ToolCall.id).count tc.id = 1 :=
      List.count_eq_one_of_mem hnd (List.mem_map_of_mem _ htc)
    rw [List.count_eq_countP, List.countP_map] at h1
    simpa [Function.comp] using h1

/-- Executor fixture that always succeeds with a fixed payload. -/
def eOk : ExecOracle := fun _ _ => .ok "result-payload"

/-- Executor fixture that always fails (network failure). -/
def eFail : ExecOracle := fun _ _ => .error ()

/-- A well-formed search call fixture. -/
def callSearch : ToolCall :=
  ⟨1, "tavily_search", [("query", ArgValue.str "iphone models apple.com prices")]⟩

/-- A crawl call fixture whose max_depth argument is the invalid -1. -/
def callBadCrawl : ToolCall :=
  ⟨2, "tavily_crawl",
    [("base_url", ArgValue.str "https://apple.com"), ("max_depth", ArgValue.int (-1))]⟩

/-- Model fixture that always requests the single search call. -/
def mOneSearch : ModelOracle := fun _ => .ok ("searching", [callSearch])

/-- Model fixture that always answers immediately with no tool calls. -/
def mFinal : ModelOracle := fun _ => .ok ("answer", [])

theorem c3_tool_messages_have_unique_request_witness :
    ([callSearch].map ToolCall.id).Nodup ∧
    (turn mOneSearch webTools eOk [] =
      .next ([] ++ .assistant "searching" [callSearch] ::
        [callSearch].map (runTool webTools eOk)) ∧
    ∀ r ∈ [callSearch].map (runTool webTools eOk),
      ∃ cid tname content, r = .toolMsg cid tname content ∧
        [callSearch].countP (fun tc => tc.id == cid) = 1) :=
  ⟨by decide,
   c3_tool_messages_have_unique_request mOneSearch webTools eOk [] "searching"
     callSearch [] rfl (by decide)⟩

/-- C4: a ToolCall whose arguments fail schema validation is
short-circuited into InvalidToolArguments content; the result does not
depend on the executor, so the external tool executor is never
consulted. -/
theorem c4_invalid_args_never_reach_executor (tools : List ToolSpec)
    (e e2 : ExecOracle) (c : ToolCall) (t : ToolSpec)
    (hf : tools.find? (fun ts => ts.name == c.name) = some t)
    (hv : t.validate c.args = false) :
    runTool tools e c = .toolMsg c.id c.name "InvalidToolArguments" ∧
    runTool tools e c = runTool tools e2 c := by
  have hc : ∀ e3 : ExecOracle, runToolContent tools e3 c = "InvalidToolArguments" := by
    intro e3
    simp [runToolContent, hf, hv]
  constructor
  · unfold runTool
    rw [hc e]
  · unfold runTool
    rw [hc e, hc e2]

theorem c4_invalid_args_never_reach_executor_witness :
    webTools.find? (fun ts => ts.name == callBadCrawl.name) = some crawl ∧
    crawl.validate callBadCrawl.args = false ∧
    (runTool webTools eOk callBadCrawl =
      .toolMsg callBadCrawl.id callBadCrawl.name "InvalidToolArguments" ∧
    runTool webTools eOk callBadCrawl = runTool webTools eFail callBadCrawl) :=
  ⟨rfl, rfl,
   c4_invalid_args_never_reach_executor webTools eOk eFail callBadCrawl crawl rfl rfl⟩

/-- C5: when the model requests tools, the turn always continues the
session (outcome `next`, so the next model turn follows); every
requested call's result is reported back into the history, a validation
failure as InvalidToolArguments content and an executor failure as
ToolExecutionError content — neither is fatal to the session. -/
theorem c5_tool_errors_reported_not_fatal (m : ModelOracle)
    (tools : List ToolSpec) (e : ExecOracle) (h : List Message) (c : String)
    (call : ToolCall) (rest : List ToolCall)
    (hm : m h = .ok (c, call :: rest)) :
    turn m tools e h =
      .next (h ++ .assistant c (call :: rest) ::
        (call :: rest).map (runTool tools e)) ∧
    ∀ tc ∈ call :: rest,
      runTool tools e tc ∈
        h ++ .assistant c (call :: rest) :: (call :: rest).map (runTool tools e) ∧
      (∀ t, tools.find? (fun ts => ts.name == tc.name) = some t →
        t.validate tc.args = false →
        runTool tools e tc = .toolMsg tc.id tc.name "InvalidToolArguments") ∧
      (∀ t, tools.find? (fun ts => ts.name == tc.name) = some t →
        t.validate tc.args = true → e tc.name tc.args = .error () →
        runTool tools e tc = .toolMsg tc.id tc.name "ToolExecutionError") := by
  refine ⟨by unfold turn; rw [hm], ?_⟩
  intro tc htc
  refine ⟨?_, ?_, ?_⟩
  · exact List.mem_append_right _
      (List.mem_cons_of_mem _ (List.mem_map_of_mem _ htc))
  · intro t hf hv
    unfold runTool
    simp [runToolContent, hf, hv]
  · intro t hf hv he
    unfold runTool
    simp [runToolContent, hf, hv, he]

theorem c5_tool_errors_reported_not_fatal_witness :
    mOneSearch [] = .ok ("searching", [callSearch]) ∧
    (turn mOneSearch webTools eFail [] =
      .next ([] ++ .assistant "searching" [callSearch] ::
        [callSearch].map (runTool webTools eFail)) ∧
    ∀ tc ∈ [callSearch],
      runTool webTools eFail tc ∈
        [] ++ .assistant "searching" [callSearch] ::
          [callSearch].map (runTool webTools eFail) ∧
      (∀ t, webTools.find? (fun ts => ts.name == tc.name) = some t →
        t.validate tc.args = false →
        runTool webTools eFail tc = .toolMsg tc.id tc.name "InvalidToolArguments") ∧
      (∀ t, webTools.find? (fun ts => ts.name == tc.name) = some t →
        t.validate tc.args = true → eFail tc.name tc.args = .error () →
        runTool webTools eFail tc = .toolMsg tc.id tc.name "ToolExecutionError")) :=
  ⟨rfl,
   c5_tool_errors_reported_not_fatal mOneSearch webTools eFail [] "searching"
     callSearch [] rfl⟩

/-- Auxiliary: the big-step run relation is a partial function of its
input. -/
theorem Run.det_aux (m : ModelOracle) (tools : List ToolSpec) (e : ExecOracle)
    (n : Nat) (h : List Message) (r : RunResult)
    (h1 : Run m tools e n h r) :
    ∀ r2, Run m tools e n h r2 → r = r2 := by
  induction h1 with
  | maxIter h =>
    intro r2 h2
    cases h2 with
    | maxIter _ => rfl
  | modelErr n h hm =>
    intro r2 h2
    cases h2 with
    | modelErr _ _ _ => rfl
    | finalAns _ _ c2 hm2 => rw [hm] at hm2; cases hm2
    | toolTurn _ _ c2 call2 rest2 r2h hm2 hrun2 => rw [hm] at hm2; cases hm2
  | finalAns n h c hm =>
    intro r2 h2
    cases h2 with
    | modelErr _ _ hm2 => rw [hm] at hm2; cases hm2
    | finalAns _ _ c2 hm2 =>
      rw [hm] at hm2
      simp only [Except.ok.injEq, Prod.mk.injEq] at hm2
      rw [hm2.1]
    | toolTurn _ _ c2 call2 rest2 r2h hm2 hrun2 =>
      rw [hm] at hm2
      simp at hm2
  | toolTurn n h c call rest r hm hrun ih =>
    intro r2 h2
    cases h2 with
    | modelErr _ _ hm2 => rw [hm] at hm2; cases hm2
    | finalAns _ _ c2 hm2 => rw [hm] at hm2; simp at hm2
    | toolTurn _ _ c2 call2 rest2 r2h hm2 hrun2 =>
      rw [hm] at hm2
      simp only [Except.ok.injEq, Prod.mk.injEq, List.cons.injEq] at hm2
      obtain ⟨rfl, rfl, rfl⟩ := hm2
      exact ih r2 hrun2

/-- Adequacy: the loop realizes the big-step run relation. -/
theorem loop_run (n : Nat) (m : ModelOracle) (tools : List ToolSpec)
    (e : ExecOracle) (h : List Message) :
    Run m tools e n h (loop n m tools e h) := by
  induction n generalizing h with
  | zero => exact Run.maxIter h
  | succ n ih =>
    cases hm : m h with
    | error u =>
      have hl : loop (n + 1) m tools e h = .modelInvocationError h := by
        simp [loop, turn, hm]
      rw [hl]
      cases u
      exact Run.modelErr n h hm
    | ok p =>
      obtain ⟨c, calls⟩ := p
      cases calls with
      | nil =>
        have hl : loop (n + 1) m tools e h = .final c (h ++ [.assistant c []]) := by
          simp [loop, turn, hm]
        rw [hl]
        exact Run.finalAns n h c hm
      | cons call rest =>
        have hl : loop (n + 1) m tools e h =
            loop n m tools e (h ++ .assistant c (call :: rest) ::
              (call :: rest).map (runTool tools e)) := by
          simp [loop, turn, hm]
        rw [hl]
        exact Run.toolTurn n h c call rest _ hm (ih _)

/-- C6: the loop introduces no nondeterminism — for one fixed
deterministic assignment of model and tool responses, any two runs from
the identical initial history produce the identical result (final
answer and final message history). -/
theorem c6_identical_replay_identical_result (m : ModelOracle)
    (tools : List ToolSpec) (e : ExecOracle) (n : Nat) (h : List Message)
    (r r2 : RunResult) (h1 : Run m tools e n h r) (h2 : Run m tools e n h r2) :
    r = r2 :=
  Run.det_aux m tools e n h r h1 r2 h2

theorem c6_identical_replay_identical_result_witness :
    RunResult.final "answer" [Message.assistant "answer" []] =
      loop 1 mFinal webTools eOk [] :=
  c6_identical_replay_identical_result mFinal webTools eOk 1 [] _ _
    (Run.finalAns 0 [] "answer" rfl) (loop_run 1 mFinal webTools eOk [])

/-- C7: turn ordering within a session is strict — when a turn requests
tools, the loop proceeds by recursing on the extended history, which
already contains every tool result of that turn; the next model
decision therefore takes all of them as input. -/
theorem c7_next_turn_sees_all_tool_results (n : Nat) (m : ModelOracle)
    (tools : List ToolSpec) (e : ExecOracle) (h h2 : List Message)
    (ht : turn m tools e h = .next h2) :
    loop (n + 1) m tools e h = loop n m tools e h2 ∧
    ∃ c call rest, m h = .ok (c, call :: rest) ∧
      h2 = h ++ .assistant c (call :: rest) :: (call :: rest).map (runTool tools e) ∧
      ∀ tc ∈ call :: rest, runTool tools e tc ∈ h2 := by
  refine ⟨by simp [loop, ht], ?_⟩
  obtain ⟨c, call, rest, hm, rfl⟩ := turn_next_eq m tools e h h2 ht
  refine ⟨c, call, rest, hm, rfl, ?_⟩
  intro tc htc
  exact List.mem_append_right _
    (List.mem_cons_of_mem _ (List.mem_map_of_mem _ htc))

theorem c7_next_turn_sees_all_tool_results_witness :
    turn mOneSearch webTools eOk [] =
      .next ([] ++ .assistant "searching" [callSearch] ::
        [callSearch].map (runTool webTools eOk)) ∧
    (loop 1 mOneSearch webTools eOk [] =
      loop 0 mOneSearch webTools eOk
        ([] ++ .assistant "searching" [callSearch] ::
          [callSearch].map (runTool webTools eOk)) ∧
    ∃ c call rest, mOneSearch [] = .ok (c, call :: rest) ∧
      ([] ++ .assistant "searching" [callSearch] ::
        [callSearch].map (runTool webTools eOk)) =
        [] ++ .assistant c (call :: rest) ::
          (call :: rest).map (runTool webTools eOk) ∧
      ∀ tc ∈ call :: rest,
        runTool webTools eOk tc ∈
          [] ++ .assistant "searching" [callSearch] ::
            [callSearch].map (runTool webTools eOk)) :=
  ⟨rfl,
   c7_next_turn_sees_all_tool_results 0 mOneSearch webTools eOk []
     ([] ++ .assistant "searching" [callSearch] ::
       [callSearch].map (runTool webTools eOk)) rfl⟩

/-- The tool set carried by a loop state never changes along a run. -/
theorem stateTrace_tools_eq (n : Nat) (m : ModelOracle) (e : ExecOracle) :
    ∀ s s2 : AgentState, s2 ∈ stateTrace n m e s → s2.tools = s.tools := by
  induction n with
  | zero =>
    intro s s2 hs
    simp [stateTrace] at hs
    rw [hs]
  | succ n ih =>
    intro s s2 hs
    cases ht : turn m s.tools e s.history with
    | modelError =>
      simp [stateTrace, ht] at hs
      rw [hs]
    | done a h2 =>
      simp [stateTrace, ht] at hs
      cases hs with
      | inl h3 => rw [h3]
      | inr h3 => rw [h3]
    | next h2 =>
      simp [stateTrace, ht] at hs
      cases hs with
      | inl h3 => rw [h3]
      | inr h3 => exact ih ⟨h2, s.tools⟩ s2 h3

/-- The initial state for a session of the notebook agent: empty history
and the notebook tool set. -/
def agentStart : AgentState := ⟨[], webTools⟩

/-- C8: the tool set is defined once at startup and never modified by
the loop — every state reached in a run carries exactly the initial
ToolSpecs — and the notebook construction fixes search with
max_results = 10 and topic = "general", extract with
extract_depth = "advanced", and crawl with defaults. -/
theorem c8_toolspecs_immutable (n : Nat) (m : ModelOracle) (e : ExecOracle)
    (s s2 : AgentState) (hs : s2 ∈ stateTrace n m e s) :
    s2.tools = s.tools ∧
    search.config = [("max_results", ArgValue.int 10), ("topic", ArgValue.str "general")] ∧
    extract.config = [("extract_depth", ArgValue.str "advanced")] ∧
    crawl.config = [] :=
  ⟨stateTrace_tools_eq n m e s s2 hs, rfl, rfl, rfl⟩

theorem c8_toolspecs_immutable_witness :
    agentStart ∈ stateTrace 1 mFinal eOk agentStart ∧
    (agentStart.tools = agentStart.tools ∧
    search.config = [("max_results", ArgValue.int 10), ("topic", ArgValue.str "general")] ∧
    extract.config = [("extract_depth", ArgValue.str "advanced")] ∧
    crawl.config = []) := by
  have hmem : agentStart ∈ stateTrace 1 mFinal eOk agentStart := by
    rw [show stateTrace 1 mFinal eOk agentStart =
      [agentStart, ⟨[Message.assistant "answer" []], webTools⟩] from rfl]
    exact List.mem_cons_self _ _
  exact ⟨hmem, c8_toolspecs_immutable 1 mFinal eOk agentStart agentStart hmem⟩

/-- C9: the web agent is constructed with the gpt-4.1 chat model as its
decision-maker; the o3-mini model instantiated alongside it is a
different model and is not the one passed to the agent, so every model
decision of this program's sessions is made by gpt-4.1. -/
theorem c9_web_agent_model_is_gpt_4_1 :
    web_agent.model = gpt_4_1 ∧ web_agent.model.model = "gpt-4.1" ∧
    web_agent.model ≠ o3_mini := by
  refine ⟨rfl, rfl, ?_⟩
  decide

/-- Replacing the bindings of one key leaves lookups of a different key
unchanged. -/
theorem find?_map_replace (k v k2 : String) (hne : k ≠ k2)
    (env : List (String × String)) :
    (env.map (fun p => if p.1 == k then (k, v) else p)).find?
      (fun p => p.1 == k2) = env.find? (fun p => p.1 == k2) := by
  induction env with
  | nil => rfl
  | cons p env ih =>
    rw [List.map_cons]
    by_cases hpk : p.1 = k
    · have h1 : (if (p.1 == k) then (k, v) else p) = (k, v) := by simp [hpk]
      rw [h1]
      have h2 : ((k, v).1 == k2) = false := by simp [hne]
      have h3 : (p.1 == k2) = false := by simp [hpk, hne]
      simp only [List.find?, h2, h3]
      exact ih
    · have h1 : (if (p.1 == k) then (k, v) else p) = p := by simp [hpk]
      rw [h1]
      by_cases hpk2 : p.1 = k2
      · have h2 : (p.1 == k2) = true := by simp [hpk2]
        simp only [List.find?, h2]
      · have h2 : (p.1 == k2) = false := by simp [hpk2]
        simp only [List.find?, h2]
        exact ih

/-- Setting one environment variable does not change the value read for
a different variable. -/
theorem envGet_envSet_ne (env : List (String × String)) (k v k2 : String)
    (hne : k ≠ k2) :
    envGet (envSet env k v) k2 = envGet env k2 := by
  unfold envGet envSet
  cases hsome : (env.find? (fun p => p.1 == k)).isSome with
  | true =>
    simp only [hsome, if_true]
    rw [find?_map_replace k v k2 hne env]
  | false =>
    simp only [hsome, Bool.false_eq_true, if_false]
    rw [List.find?_append]
    have h2 : ((k, v).1 == k2) = false := by simp [hne]
    simp [List.find?, h2]

/-- An environment after load_dotenv in which TAVILY_API_KEY is present
but set to the empty string and OPENAI_API_KEY is set to a non-empty
value. -/
def envEmptyTavily : List (String × String) :=
  [("TAVILY_API_KEY", ""), ("OPENAI_API_KEY", "sk-test")]

/-- An environment after load_dotenv in which both credentials are set
to non-empty values. -/
def envBothSet : List (String × String) :=
  [("TAVILY_API_KEY", "tvly-key"), ("OPENAI_API_KEY", "sk-test")]

/-- A getpass oracle fixture returning a fixed typed-in value. -/
def gpFixture : String → String := fun _ => "typed-in-value"

/-- C10 counterexample: with TAVILY_API_KEY present in the environment
but bound to the empty string, the setup cell still prompts via getpass
and overwrites the value — refuting the claim that a prompt occurs only
when the variable is absent and that a set variable is left unchanged. -/
theorem c10_counterexample_empty_string_prompts :
    envGet envEmptyTavily "TAVILY_API_KEY" = some "" ∧
    (setupCredentials gpFixture envEmptyTavily).2.1 = true ∧
    envGet (setupCredentials gpFixture envEmptyTavily).1 "TAVILY_API_KEY" =
      some "typed-in-value" :=
  ⟨rfl, rfl, rfl⟩

/-- C10 (amended): for each credential the setup prompts via getpass
exactly when the variable is absent or bound to the empty string (Python
falsiness) after loading .env; when it is bound to a non-empty value, no
prompt occurs and the value is left unchanged. -/
theorem c10_prompt_iff_absent_or_empty (gp : String → String)
    (env : List (String × String)) :
    ((setupCredentials gp env).2.1 = pythonFalsy (envGet env "TAVILY_API_KEY")) ∧
    ((setupCredentials gp env).2.2 = pythonFalsy (envGet env "OPENAI_API_KEY")) ∧
    (pythonFalsy (envGet env "TAVILY_API_KEY") = false →
      envGet (setupCredentials gp env).1 "TAVILY_API_KEY" =
        envGet env "TAVILY_API_KEY") ∧
    (pythonFalsy (envGet env "OPENAI_API_KEY") = false →
      envGet (setupCredentials gp env).1 "OPENAI_API_KEY" =
        envGet env "OPENAI_API_KEY") := by
  have hne : ("TAVILY_API_KEY" : String) ≠ "OPENAI_API_KEY" := by decide
  cases hT : pythonFalsy (envGet env "TAVILY_API_KEY") with
  | false =>
    cases hO : pythonFalsy (envGet env "OPENAI_API_KEY") with
    | false =>
      have hs : setupCredentials gp env = (env, false, false) := by
        simp [setupCredentials, ensureKey, hT, hO]
      rw [hs]
      exact ⟨rfl, rfl, fun _ => rfl, fun _ => rfl⟩
    | true =>
      have hs : setupCredentials gp env =
          (envSet env "OPENAI_API_KEY" (gp "OPENAI_API_KEY"), false, true) := by
        simp [setupCredentials, ensureKey, hT, hO]
      rw [hs]
      refine ⟨rfl, rfl, fun _ => ?_, fun hcon => by simp [hO] at hcon⟩
      exact envGet_envSet_ne env "OPENAI_API_KEY" _ "TAVILY_API_KEY" hne.symm
  | true =>
    have hOpres :
        envGet (envSet env "TAVILY_API_KEY" (gp "TAVILY_API_KEY")) "OPENAI_API_KEY" =
          envGet env "OPENAI_API_KEY" :=
      envGet_envSet_ne env "TAVILY_API_KEY" _ "OPENAI_API_KEY" hne
    cases hO : pythonFalsy (envGet env "OPENAI_API_KEY") with
    | false =>
      have hs : setupCredentials gp env =
          (envSet env "TAVILY_API_KEY" (gp "TAVILY_API_KEY"), true, false) := by
        simp [setupCredentials, ensureKey, hT, hOpres, hO]
      rw [hs]
      exact ⟨rfl, rfl, fun hcon => by simp [hT] at hcon, fun _ => hOpres⟩
    | true =>
      have hs : setupCredentials gp env =
          (envSet (envSet env "TAVILY_API_KEY" (gp "TAVILY_API_KEY"))
            "OPENAI_API_KEY" (gp "OPENAI_API_KEY"), true, true) := by
        simp [setupCredentials, ensureKey, hT, hOpres, hO]
      rw [hs]
      exact ⟨rfl, rfl, fun hcon => by simp [hT] at hcon,
        fun hcon => by simp [hO] at hcon⟩

theorem c10_prompt_iff_absent_or_empty_witness :
    ((setupCredentials gpFixture envBothSet).2.1 =
      pythonFalsy (envGet envBothSet "TAVILY_API_KEY")) ∧
    ((setupCredentials gpFixture envBothSet).2.2 =
      pythonFalsy (envGet envBothSet "OPENAI_API_KEY")) ∧
    (pythonFalsy (envGet envBothSet "TAVILY_API_KEY") = false →
      envGet (setupCredentials gpFixture envBothSet).1 "TAVILY_API_KEY" =
        envGet envBothSet "TAVILY_API_KEY") ∧
    (pythonFalsy (envGet envBothSet "OPENAI_API_KEY") = false →
      envGet (setupCredentials gpFixture envBothSet).1 "OPENAI_API_KEY" =
        envGet envBothSet "OPENAI_API_KEY") :=
  c10_prompt_iff_absent_or_empty gpFixture envBothSet
